import Mathlib

/-!
Verification development for the ArnoldPyProc procedural bridge
(src/src/main.cpp): a C++ plugin that lets the Arnold renderer expand
"procedural" nodes by delegating to user Python scripts.

The development shallowly embeds the parts of the program the claims are
about:
* `findInPathF` — the search-path resolution loop `PythonDso::findInPath`
  (main.cpp lines 600-650), with the filesystem and the environment as
  explicit parameters and an explicit fuel bounding the depth of the
  `[VAR]` environment-indirection recursion (the C++ recursion has no
  guard, so a cyclic environment diverges; `none` models running out of
  fuel, `some none` models NotFound, `some (some p)` a resolved path).
* `PythonDso` and its methods `init`, `numNodes`, `getNode`, `cleanup`
  (lines 328-596), with the outcomes of the calls into the embedded
  Python runtime supplied by oracles, and `POut.ub` marking an operation
  that dereferences a null `PyObject*` (undefined behavior, e.g.
  `Py_DECREF(NULL)` or `PyObject_GetAttrString(NULL, ...)`).
* the exported protocol entry points `procedural_init`,
  `procedural_cleanup`, `procedural_num_nodes`, `procedural_get_node`
  (lines 664-758).
-/

/-- The platform path separator `gsPathSep` (main.cpp line 47, the
non-Windows value). -/
def pathSep : Char := ':'

/-- Predicate used by the split loops: character is not the separator. -/
def notSep (c : Char) : Bool := c != pathSep

/-- Severities of the host logging facility (AiMsgInfo / AiMsgWarning /
AiMsgError). -/
inductive LogLevel : Type where
  | info : LogLevel
  | warning : LogLevel
  | error : LogLevel
deriving DecidableEq

/-- Outcome of an operation of the embedding: either a value, or
undefined behavior (a null `PyObject*` was dereferenced). -/
inductive POut (α : Type) : Type where
  | ok : α → POut α
  | ub : POut α
deriving DecidableEq

/-- Values handed back by the embedded Python runtime, at the granularity
the bridge inspects them: an integer (anything `PyInt_AsLong` coerces), a
string, a two-element tuple, or anything else (which also covers tuples
of a size other than two, since the bridge only distinguishes
`PyTuple_Check && PyTuple_Size == 2`). -/
inductive PyVal : Type where
  | pyint : Int → PyVal
  | pystr : List Char → PyVal
  | tuple2 : PyVal → PyVal → PyVal
  | other : PyVal
deriving DecidableEq

/-- Models `PyInt_AsLong`: returns the integer and whether an error was raised.
On a non-coercible value it returns -1 with an error set, exactly the
convention the C++ code tests with `rv == -1 && PyErr_Occurred()`. -/
def pyIntAsLong : PyVal → Int × Bool
  | PyVal.pyint n => (n, false)
  | _ => (-1, true)

/-- Models `PyString_AsString`: the char buffer of a string, NULL (with a
TypeError raised) otherwise. -/
def pyStrAsString : PyVal → Option (List Char)
  | PyVal.pystr s => some s
  | _ => none

/-- The bracket test of `findInPath`:
`path[0] == '[' && path[path.length()-1] == ']'` (lines 614 and 636). -/
def isBracket (seg : List Char) : Bool :=
  seg.head? == some '[' && seg.getLast? == some ']'

/-- The environment-variable name inside a bracket segment:
`path.substr(1, path.length()-2)` (lines 616 and 638). -/
def bracketName (seg : List Char) : List Char :=
  (seg.drop 1).dropLast

/-- Processing of one segment of the search path, common to the loop body
and the trailing segment of `findInPath` (lines 612-624 and 634-646):
empty segments are skipped; a `[NAME]` segment looks the name up in the
environment and, when set, recurses (`recur`) on the value; a directory
segment appends `"/" + script` and consults the filesystem. -/
def segStep (env : List Char → Option (List Char)) (fs : List Char → Bool)
    (script : List Char) (recur : List Char → Option (Option (List Char)))
    (seg : List Char) : Option (Option (List Char)) :=
  if seg = [] then some none
  else if isBracket seg then
    match env (bracketName seg) with
    | some v => recur v
    | none => some none
  else if fs (seg ++ '/' :: script) then some (some (seg ++ '/' :: script))
  else some none

/-- Continuation after a segment: a found result stops the scan, an
exhausted fuel propagates, otherwise the scan moves past the separator
(or stops with NotFound when the processed segment was the trailing
one). -/
def contStep (recur : List Char → Option (Option (List Char)))
    (hd : Option (Option (List Char))) (rest : List Char) :
    Option (Option (List Char)) :=
  match hd with
  | none => none
  | some (some r) => some (some r)
  | some none =>
    match rest with
    | [] => some none
    | _ :: rest2 => recur rest2

/-- The loop of `PythonDso::findInPath` (lines 600-650): scan the search path left to
right, one separator-delimited segment at a time; the trailing segment
(the one with no separator after it) is processed by the same
`segStep`. The fuel bounds the recursion depth (the C++ has no such
bound; `none` means the bound was hit). -/
def findInPathF (env : List Char → Option (List Char))
    (fs : List Char → Bool) (script : List Char) :
    Nat → List Char → Option (Option (List Char))
  | 0, _ => none
  | fuel + 1, p =>
    contStep (findInPathF env fs script fuel)
      (segStep env fs script (findInPathF env fs script fuel)
        (p.takeWhile notSep))
      (p.dropWhile notSep)

/-- Splitting a search path into its separator-delimited segments (the
spec's "ordered list of segments"): empty segments are kept (the
resolver skips them), and the trailing segment is the last element. -/
def splitSep (p : List Char) : List (List Char) :=
  match hdw : p.dropWhile notSep with
  | [] => [p.takeWhile notSep]
  | _ :: rest2 => p.takeWhile notSep :: splitSep rest2
termination_by p.length
decreasing_by
  have hle := (List.dropWhile_sublist (p := notSep) (l := p)).length_le
  rw [hdw] at hle
  simp only [List.length_cons] at hle
  omega

/-- The bracketed environment-variable names occurring in a search
path. -/
def bracketVars (p : List Char) : List (List Char) :=
  (splitSep p).filterMap
    (fun s => if isBracket s then some (bracketName s) else none)

/-- Modelled from the spec (section 4.1 PathResolver), for the refinement
claim: resolve a filename against an ordered list of segments, scanning
left to right; empty segments are skipped; a `[NAME]` segment, when the
variable is set, recursively resolves the filename against the
variable's value used as a new search path, and is skipped when unset;
a directory segment returns the first `segment ++ "/" ++ filename` that
is a regular file; `some none` (NotFound) when no segment matches. The
fuel mirrors the one of `findInPathF`. -/
def resolveSegsF (env : List Char → Option (List Char))
    (fs : List Char → Bool) (script : List Char) :
    Nat → List (List Char) → Option (Option (List Char))
  | _, [] => some none
  | 0, _ :: _ => none
  | fuel + 1, seg :: rest =>
    if seg = [] then resolveSegsF env fs script fuel rest
    else if isBracket seg then
      match env (bracketName seg) with
      | some v =>
        match resolveSegsF env fs script fuel (splitSep v) with
        | none => none
        | some (some r) => some (some r)
        | some none => resolveSegsF env fs script fuel rest
      | none => resolveSegsF env fs script fuel rest
    else if fs (seg ++ '/' :: script) then some (some (seg ++ '/' :: script))
    else resolveSegsF env fs script fuel rest

/-- A self-referential environment: variable `CYC` whose value is its own
bracketed name; resolving through it recurses without bound. -/
def cycEnv : List Char → Option (List Char) :=
  fun v => if v = "CYC".data then some ("[CYC]".data) else none

/-- Directory-separator normalization applied to the resolved script path
(lines 294-310, the non-Windows direction: every backslash becomes a
forward slash). -/
def normalizeSeps (s : List Char) : List Char :=
  s.map (fun c => if c = '\\' then '/' else c)

/-- The state of one `PythonDso` instance (lines 652-658). `mModule` and
`mUserData` are the two owned Python references; `none` models a null
`PyObject*`. `mUserData` is kept as the value the script returned (the
opaque UserContext). -/
structure PythonDso : Type where
  mProcName : List Char
  mScript : List Char
  mModule : Option Nat
  mUserData : Option PyVal
  mVerbose : Bool
deriving DecidableEq

/-- Accessor `PythonDso::valid` (lines 323-326): the resolved script path is
non-empty. -/
def PythonDso.valid (st : PythonDso) : Bool :=
  !st.mScript.isEmpty

/-- The `PythonDso` constructor (lines 260-317): if the locator names an
existing regular file it is used directly, otherwise it is resolved
through `findInPath` against the search path; failure logs a warning and
leaves `mScript` empty; a resolved path has its directory separators
normalized. `none` models the constructor never returning because a
cyclic environment made `findInPath` recurse without bound. -/
def mkPythonDso (env : List Char → Option (List Char))
    (fs : List Char → Bool) (fuel : Nat)
    (name script procpath : List Char) (verbose : Bool) :
    Option (PythonDso × List LogLevel) :=
  if fs script then
    some (⟨name, normalizeSeps script, none, none, verbose⟩,
      if verbose then [LogLevel.info] else [])
  else
    match findInPathF env fs script fuel procpath with
    | none => none
    | some (some found) =>
      some (⟨name, normalizeSeps found, none, none, verbose⟩,
        (if verbose then [LogLevel.info] else []) ++
          (if verbose then [LogLevel.info] else []))
    | some none =>
      some (⟨name, [], none, none, verbose⟩,
        (if verbose then [LogLevel.info] else []) ++ [LogLevel.warning])

/-- Oracle for `PythonDso::init`'s five call-outs into the Python runtime:
whether `PyImport_ImportModule("imp")` succeeds, whether the module has
a `load_source` attribute, the module reference `imp.load_source`
returns (`none`: the load raised), whether the loaded module has an
`Init` attribute, and what calling `Init(name)` returns (`none`: the
call raised). -/
structure InitOracle : Type where
  impOk : Bool
  loadSourceOk : Bool
  loadResult : Option Nat
  hasInit : Bool
  initResult : Option PyVal
deriving DecidableEq

/-- The failure modes of `init()` enumerated by the spec: the `imp`
machinery unavailable, the module failed to load, the entry function
missing, an error raised during execution, or a wrong return shape (not
a two-element tuple, or a first element that does not coerce to an
integer). -/
def InitFailure (orc : InitOracle) : Prop :=
  orc.impOk = false ∨ orc.loadSourceOk = false ∨ orc.loadResult = none ∨
  orc.hasInit = false ∨ orc.initResult = none ∨
  (∃ v, orc.initResult = some v ∧ ∀ a c, v ≠ PyVal.tuple2 a c) ∨
  (∃ a c, orc.initResult = some (PyVal.tuple2 a c) ∧
    ∀ n : Int, a ≠ PyVal.pyint n)

/-- Result of `PythonDso::init`: the returned status, the bridge state
after the call, and what severities were logged. Every Python error the
body encounters is printed and cleared before returning (the function
leaves no exception pending), so no pending-error flag is needed. -/
structure InitOut : Type where
  status : Int
  st : PythonDso
  logs : List LogLevel
deriving DecidableEq

/-- Method `PythonDso::init` (lines 328-448). The module name is derived first
(side-effect free, see `deriveModname`); then the `imp` module is
imported, `load_source` fetched, the script loaded as a module (stored
in `mModule` as soon as the load succeeds), its `Init` function looked
up and called with the procedural's name; a two-element tuple result has
its second element retained as `mUserData` *before* the first element is
coerced to the status (line 401-405), and a status that fails to coerce
is logged and replaced by 0. Every failure logs an error and returns
status 0. -/
def PythonDso.init (st : PythonDso) (orc : InitOracle) : InitOut :=
  if orc.impOk then
    if orc.loadSourceOk then
      match orc.loadResult with
      | some m =>
        let st1 : PythonDso :=
          ⟨st.mProcName, st.mScript, some m, st.mUserData, st.mVerbose⟩
        let vlog := if st.mVerbose then [LogLevel.info] else []
        if orc.hasInit then
          match orc.initResult with
          | some (PyVal.tuple2 a c) =>
            let st2 : PythonDso :=
              ⟨st1.mProcName, st1.mScript, st1.mModule, some c, st1.mVerbose⟩
            if (pyIntAsLong a).1 = -1 ∧ (pyIntAsLong a).2 = true then
              ⟨0, st2, vlog ++ [LogLevel.error]⟩
            else
              ⟨(pyIntAsLong a).1, st2, vlog⟩
          | some _ => ⟨0, st1, vlog ++ [LogLevel.error]⟩
          | none => ⟨0, st1, vlog ++ [LogLevel.error]⟩
        else ⟨0, st1, vlog ++ [LogLevel.error]⟩
      | none =>
        ⟨0, st, (if st.mVerbose then [LogLevel.info] else []) ++
          [LogLevel.error]⟩
    else ⟨0, st, [LogLevel.error]⟩
  else ⟨0, st, [LogLevel.error]⟩

/-- Oracle for a call-out of `numNodes` / `getNode` / `cleanup`: whether
the module has the named function, and what calling it returns (`none`:
the call raised). When `mUserData` is null the call itself fails
(`Py_BuildValue` with a null `"O"` argument), which the methods model by
forcing the raised outcome. -/
structure CallOracle : Type where
  hasFunc : Bool
  callResult : Option PyVal
deriving DecidableEq

/-- Result of `PythonDso::numNodes`. -/
structure NumOut : Type where
  count : Int
  logs : List LogLevel
  errPending : Bool
deriving DecidableEq

/-- Method `PythonDso::numNodes` (lines 450-494): fetch the module's `NumNodes`
attribute — with a null `mModule` this is
`PyObject_GetAttrString(NULL, ...)`, undefined behavior — call it with
the UserContext, coerce the result to an integer, log and return 0 on a
missing function, a raised error, or a non-coercible result. -/
def PythonDso.numNodes (st : PythonDso) (orc : CallOracle) : POut NumOut :=
  match st.mModule with
  | none => POut.ub
  | some _ =>
    if orc.hasFunc then
      match (if st.mUserData.isNone then none else orc.callResult) with
      | some v =>
        if (pyIntAsLong v).1 = -1 ∧ (pyIntAsLong v).2 = true then
          POut.ok ⟨0, [LogLevel.error], false⟩
        else POut.ok ⟨(pyIntAsLong v).1, [], false⟩
      | none => POut.ok ⟨0, [LogLevel.error], false⟩
    else POut.ok ⟨0, [LogLevel.error], false⟩

/-- Result of `PythonDso::getNode`: the looked-up node handle (a
non-owning reference into the host registry, modelled as a `Nat` id),
the logged severities, and whether a Python exception is left pending
when the method returns (the non-string branch logs but never clears
the TypeError `PyString_AsString` raised). -/
structure GetNodeOut : Type where
  node : Option Nat
  logs : List LogLevel
  errPending : Bool
deriving DecidableEq

/-- Method `PythonDso::getNode` (lines 496-544): fetch the module's `GetNode`
attribute (undefined behavior on a null `mModule`), call it with
(UserContext, index), log a type error on a non-string result but fall
through regardless (lines 510-517), convert with `PyString_AsString`
(null on non-string), look the name up in the host registry
(`AiNodeLookUpByName`, modelled by `registry`, with a null name looking
up to nothing), and log when the lookup fails. The call index does not
affect the model because the call's outcome is the oracle's. -/
def PythonDso.getNode (st : PythonDso) (orc : CallOracle)
    (registry : List Char → Option Nat) : POut GetNodeOut :=
  match st.mModule with
  | none => POut.ub
  | some _ =>
    if orc.hasFunc then
      match (if st.mUserData.isNone then none else orc.callResult) with
      | some pyrv =>
        match pyrv with
        | PyVal.pystr s =>
          match registry s with
          | some n => POut.ok ⟨some n, [], false⟩
          | none => POut.ok ⟨none, [LogLevel.error], false⟩
        | _ => POut.ok ⟨none, [LogLevel.error, LogLevel.error], true⟩
      | none => POut.ok ⟨none, [LogLevel.error], false⟩
    else POut.ok ⟨none, [LogLevel.error], false⟩

/-- Result of `PythonDso::cleanup`. -/
structure CleanupOut : Type where
  status : Int
  st : PythonDso
  logs : List LogLevel
deriving DecidableEq

/-- Method `PythonDso::cleanup` (lines 546-596): fetch the module's `Cleanup`
attribute — `PyObject_GetAttrString(NULL, ...)` when `mModule` is null,
undefined behavior — call it with the UserContext and coerce the status
like `numNodes`; then unconditionally `Py_DECREF(mUserData)` and
`Py_DECREF(mModule)` (lines 587-588) — `Py_DECREF(NULL)` when
`mUserData` is null, undefined behavior — and null both fields. -/
def PythonDso.cleanup (st : PythonDso) (orc : CallOracle) : POut CleanupOut :=
  match st.mModule with
  | none => POut.ub
  | some _ =>
    let call : Int × List LogLevel :=
      if orc.hasFunc then
        match (if st.mUserData.isNone then none else orc.callResult) with
        | some v =>
          if (pyIntAsLong v).1 = -1 ∧ (pyIntAsLong v).2 = true then
            (0, [LogLevel.error])
          else ((pyIntAsLong v).1, [])
        | none => (0, [LogLevel.error])
      else (0, [LogLevel.error])
    match st.mUserData with
    | none => POut.ub
    | some _ =>
      POut.ok ⟨call.1,
        ⟨st.mProcName, st.mScript, none, none, st.mVerbose⟩, call.2⟩

/-- Entry point `procedural_cleanup` (lines 664-678): a guard returns 0 with a
warning when the embedded runtime is not alive (`Py_IsInitialized`
false), without touching the bridge; otherwise the bridge's `cleanup`
runs and the bridge is deleted. The third component records whether the
bridge was touched. -/
def proceduralCleanup (pyInit : Bool) (dso : PythonDso) (orc : CallOracle) :
    POut (Int × List LogLevel × Bool) :=
  if pyInit then
    match dso.cleanup orc with
    | POut.ub => POut.ub
    | POut.ok r => POut.ok (r.status, r.logs, true)
  else POut.ok (0, [LogLevel.warning], false)

/-- Entry point `procedural_num_nodes` (lines 680-691): same guard, then
`dso->numNodes()`. -/
def proceduralNumNodes (pyInit : Bool) (dso : PythonDso) (orc : CallOracle) :
    POut (Int × List LogLevel × Bool) :=
  if pyInit then
    match dso.numNodes orc with
    | POut.ub => POut.ub
    | POut.ok r => POut.ok (r.count, r.logs, true)
  else POut.ok (0, [LogLevel.warning], false)

/-- Entry point `procedural_get_node` (lines 693-704): same guard, then
`dso->getNode(i)`. -/
def proceduralGetNode (pyInit : Bool) (dso : PythonDso) (orc : CallOracle)
    (registry : List Char → Option Nat) :
    POut (Option Nat × List LogLevel × Bool) :=
  if pyInit then
    match dso.getNode orc registry with
    | POut.ub => POut.ub
    | POut.ok r => POut.ok (r.node, r.logs, true)
  else POut.ok (none, [LogLevel.warning], false)

/-- Result of `procedural_init`: the returned status, what was stored in
the host's `user_ptr` (`none`: left untouched; otherwise the state of
the pointed-to bridge when the entry point returns), whether a
`PythonDso` was allocated with `new`, whether it was `delete`d before
returning, whether `dso->init()` was invoked, and the logged
severities. -/
structure AdapterInitOut : Type where
  status : Int
  userPtr : Option PythonDso
  allocated : Bool
  deleted : Bool
  initCalled : Bool
  logs : List LogLevel
deriving DecidableEq

/-- Entry point `procedural_init` (lines 706-758): guard on the runtime being alive
(warning, return 0), guard on the options node (warning, return 0);
otherwise construct a `PythonDso` with the node's parameters and the
host's search path; when it is valid, store the bridge into `user_ptr`
and return `dso->init()`'s status; when invalid, return 0 — the
allocated bridge is neither stored nor deleted. `none` models the
constructor never returning (cyclic environment). -/
def proceduralInit (pyInit optsOk : Bool)
    (env : List Char → Option (List Char)) (fs : List Char → Bool)
    (fuel : Nat) (name script procpath : List Char) (verbose : Bool)
    (orc : InitOracle) : Option AdapterInitOut :=
  if pyInit then
    if optsOk then
      match mkPythonDso env fs fuel name script procpath verbose with
      | none => none
      | some (st, clogs) =>
        if st.valid then
          some ⟨(st.init orc).status, some (st.init orc).st, true, false,
            true, clogs ++ (st.init orc).logs⟩
        else some ⟨0, none, true, false, false, clogs⟩
    else some ⟨0, none, false, false, false, [LogLevel.warning]⟩
  else some ⟨0, none, false, false, false, [LogLevel.warning]⟩

/-- The module-name derivation of `PythonDso::init` (lines 334-353):
start from the fixed tag `"pyproc_"`, append everything after the last
directory separator of the script path (`find_last_of("\\/")`), then
truncate at the first `'.'` of the whole name (`modname.find('.')`). -/
def deriveModname (script : List Char) : List Char :=
  ("pyproc_".data ++
      (script.reverse.takeWhile (fun c => c != '/' && c != '\\')).reverse
    ).takeWhile (fun c => c != '.')

/-- The basename of a script path: everything after the last directory
separator (either kind), the whole path when there is none. -/
def basenameOf (script : List Char) : List Char :=
  (script.reverse.takeWhile (fun c => c != '/' && c != '\\')).reverse

/-- Modelled from the spec ("strip extension, prepend a fixed namespace
tag", claim C7's literal reading): remove the extension — the suffix
starting at the *last* dot, when there is one — from the basename, and
prepend `"pyproc_"`. -/
def specModname (script : List Char) : List Char :=
  "pyproc_".data ++
    (if '.' ∈ basenameOf script then
      ((basenameOf script).reverse.dropWhile (fun c => c != '.')).drop 1
        |>.reverse
    else basenameOf script)

/-- Modelled from the amended claim: everything from the *first* dot of
the basename onward is stripped, and `"pyproc_"` is prepended. -/
def firstDotModname (script : List Char) : List Char :=
  "pyproc_".data ++ (basenameOf script).takeWhile (fun c => c != '.')

theorem splitSep_of_nil (p : List Char) (h : p.dropWhile notSep = []) :
    splitSep p = [p.takeWhile notSep] := by
  unfold splitSep
  split
  · rfl
  · rename_i c rest2 heq
    rw [h] at heq
    exact absurd heq (List.noConfusion)

theorem splitSep_of_cons (p : List Char) (c : Char) (rest2 : List Char)
    (h : p.dropWhile notSep = c :: rest2) :
    splitSep p = p.takeWhile notSep :: splitSep rest2 := by
  conv_lhs => rw [splitSep]
  split
  · rename_i heq
    rw [h] at heq
    exact absurd heq.symm (List.noConfusion)
  · rename_i c2 r2 heq
    rw [h] at heq
    cases heq
    rfl

theorem segStep_mono (env : List Char → Option (List Char))
    (fs : List Char → Bool) (script : List Char)
    (recur recur2 : List Char → Option (Option (List Char)))
    (seg : List Char)
    (hrec : ∀ v x, recur v = some x → recur2 v = some x) :
    ∀ x, segStep env fs script recur seg = some x →
      segStep env fs script recur2 seg = some x := by
  intro x h
  unfold segStep at h ⊢
  by_cases h1 : seg = []
  · simp only [if_pos h1] at h ⊢
    exact h
  · simp only [if_neg h1] at h ⊢
    by_cases h2 : isBracket seg = true
    · simp only [if_pos h2] at h ⊢
      cases henv : env (bracketName seg) with
      | some v =>
        rw [henv] at h
        exact hrec v x h
      | none =>
        rw [henv] at h
        exact h
    · simp only [if_neg h2] at h ⊢
      by_cases h3 : fs (seg ++ '/' :: script) = true
      · simp only [if_pos h3] at h ⊢
        exact h
      · simp only [if_neg h3] at h ⊢
        exact h

theorem findInPathF_succ (env : List Char → Option (List Char))
    (fs : List Char → Bool) (script : List Char) (fuel : Nat)
    (p : List Char) :
    findInPathF env fs script (fuel + 1) p =
      contStep (findInPathF env fs script fuel)
        (segStep env fs script (findInPathF env fs script fuel)
          (p.takeWhile notSep))
        (p.dropWhile notSep) := rfl

theorem resolveSegsF_nil (env : List Char → Option (List Char))
    (fs : List Char → Bool) (script : List Char) (fuel : Nat) :
    resolveSegsF env fs script fuel [] = some none := by
  cases fuel <;> rfl

theorem resolveSegsF_succ (env : List Char → Option (List Char))
    (fs : List Char → Bool) (script : List Char) (fuel : Nat)
    (seg : List Char) (rest : List (List Char)) :
    resolveSegsF env fs script (fuel + 1) (seg :: rest) =
      (if seg = [] then resolveSegsF env fs script fuel rest
       else if isBracket seg then
         match env (bracketName seg) with
         | some v =>
           match resolveSegsF env fs script fuel (splitSep v) with
           | none => none
           | some (some r) => some (some r)
           | some none => resolveSegsF env fs script fuel rest
         | none => resolveSegsF env fs script fuel rest
       else if fs (seg ++ '/' :: script) then
         some (some (seg ++ '/' :: script))
       else resolveSegsF env fs script fuel rest) := rfl

theorem findInPathF_mono (env : List Char → Option (List Char))
    (fs : List Char → Bool) (script : List Char) :
    ∀ fuel p r, findInPathF env fs script fuel p = some r →
      findInPathF env fs script (fuel + 1) p = some r := by
  intro fuel
  induction fuel with
  | zero =>
    intro p r h
    simp [findInPathF] at h
  | succ fuel ih =>
    intro p r h
    rw [findInPathF] at h ⊢
    unfold contStep at h ⊢
    cases hS : segStep env fs script (findInPathF env fs script fuel)
        (p.takeWhile notSep) with
    | none =>
      rw [hS] at h
      exact absurd h (Option.noConfusion)
    | some hd =>
      have hS2 := segStep_mono env fs script _ _ (p.takeWhile notSep)
        (fun v x hv => ih v x hv) hd hS
      rw [hS] at h
      rw [hS2]
      cases hd with
      | some r2 => exact h
      | none =>
        cases hrest : p.dropWhile notSep with
        | nil =>
          rw [hrest] at h
          exact h
        | cons c rest2 =>
          rw [hrest] at h
          exact ih rest2 r h

theorem findInPathF_mono_le (env : List Char → Option (List Char))
    (fs : List Char → Bool) (script : List Char)
    {fuel fuel' : Nat} (hle : fuel ≤ fuel') :
    ∀ p r, findInPathF env fs script fuel p = some r →
      findInPathF env fs script fuel' p = some r := by
  induction fuel' with
  | zero =>
    intro p r h
    have : fuel = 0 := Nat.le_zero.mp hle
    rw [this] at h
    exact h
  | succ n ih =>
    intro p r h
    rcases Nat.lt_or_ge fuel (n + 1) with hlt | hge
    · exact findInPathF_mono env fs script n p r
        (ih (Nat.lt_succ_iff.mp hlt) p r h)
    · have : fuel = n + 1 := Nat.le_antisymm hle hge
      rw [this] at h
      exact h

theorem contStep_resolve (env : List Char → Option (List Char))
    (fs : List Char → Bool) (script : List Char) (fuel : Nat)
    (seg restStr : List Char) (restSegs : List (List Char))
    (ih : ∀ q, findInPathF env fs script fuel q
      = resolveSegsF env fs script fuel (splitSep q))
    (hcont : (match restStr with
      | [] => some none
      | _ :: r2 => findInPathF env fs script fuel r2)
      = resolveSegsF env fs script fuel restSegs) :
    contStep (findInPathF env fs script fuel)
      (segStep env fs script (findInPathF env fs script fuel) seg) restStr
      = resolveSegsF env fs script (fuel + 1) (seg :: restSegs) := by
  rw [resolveSegsF_succ]
  unfold segStep contStep
  by_cases h1 : seg = []
  · simp only [if_pos h1]
    exact hcont
  · simp only [if_neg h1]
    by_cases h2 : isBracket seg = true
    · simp only [if_pos h2]
      cases henv : env (bracketName seg) with
      | some v =>
        dsimp only
        rw [← ih v]
        cases hv : findInPathF env fs script fuel v with
        | none => rfl
        | some r1 =>
          cases r1 with
          | some r => rfl
          | none => exact hcont
      | none =>
        dsimp only
        exact hcont
    · simp only [if_neg h2]
      by_cases h3 : fs (seg ++ '/' :: script) = true
      · simp only [if_pos h3]
      · simp only [if_neg h3]
        exact hcont

/-- C3: for every search path and filename, `PythonDso::findInPath` scans
segments left to right and returns the first segment whose directory
contains the filename as a regular file; a `[NAME]` segment recursively
resolves the filename against the named environment variable's value
(skipped if unset); empty segments are skipped; the final segment
without a trailing separator is tested exactly like the others; if no
segment matches, resolution fails with NotFound. Formalized as: the
source loop agrees, at every recursion-depth bound (including the
behavior at exhaustion), with the spec-modelled left-to-right resolver
`resolveSegsF` run on the separator-split segment list. -/
theorem findInPath_eq_spec_resolve (env : List Char → Option (List Char))
    (fs : List Char → Bool) (script : List Char) :
    ∀ fuel p, findInPathF env fs script fuel p
      = resolveSegsF env fs script fuel (splitSep p) := by
  intro fuel
  induction fuel with
  | zero =>
    intro p
    cases h : p.dropWhile notSep with
    | nil =>
      rw [splitSep_of_nil p h]
      rfl
    | cons c rest2 =>
      rw [splitSep_of_cons p c rest2 h]
      rfl
  | succ fuel ih =>
    intro p
    cases h : p.dropWhile notSep with
    | nil =>
      rw [splitSep_of_nil p h, findInPathF_succ, h]
      exact contStep_resolve env fs script fuel (p.takeWhile notSep) [] []
        ih (resolveSegsF_nil env fs script fuel).symm
    | cons c rest2 =>
      rw [splitSep_of_cons p c rest2 h, findInPathF_succ, h]
      exact contStep_resolve env fs script fuel (p.takeWhile notSep)
        (c :: rest2) (splitSep rest2) ih (ih rest2)

theorem bracketVars_of_nil (p : List Char) (h : p.dropWhile notSep = []) :
    bracketVars p =
      (if isBracket (p.takeWhile notSep) then
        [bracketName (p.takeWhile notSep)] else []) := by
  unfold bracketVars
  rw [splitSep_of_nil p h]
  by_cases hb : isBracket (p.takeWhile notSep) = true
  · simp [List.filterMap_cons, hb]
  · simp [List.filterMap_cons, hb]

theorem bracketVars_of_cons (p : List Char) (c : Char) (rest2 : List Char)
    (h : p.dropWhile notSep = c :: rest2) :
    bracketVars p =
      (if isBracket (p.takeWhile notSep) then
        [bracketName (p.takeWhile notSep)] else []) ++ bracketVars rest2 := by
  unfold bracketVars
  rw [splitSep_of_cons p c rest2 h]
  by_cases hb : isBracket (p.takeWhile notSep) = true
  · simp [List.filterMap_cons, hb]
  · simp [List.filterMap_cons, hb]

theorem lt_foldr_max (rank : List Char → Nat) :
    ∀ (l : List (List Char)) (w : List Char), w ∈ l →
      rank w < l.foldr (fun x acc => max (rank x + 1) acc) 0 := by
  intro l
  induction l with
  | nil =>
    intro w hw
    cases hw
  | cons x xs ih =>
    intro w hw
    rcases List.mem_cons.mp hw with h | h
    · subst h
      exact lt_of_lt_of_le (Nat.lt_succ_self _) (le_max_left _ _)
    · exact lt_of_lt_of_le (ih w h) (le_max_right _ _)

theorem findInPathF_total (env : List Char → Option (List Char))
    (rank : List Char → Nat) (fs : List Char → Bool) (script : List Char)
    (hA : ∀ v val, env v = some val → ∀ w ∈ bracketVars val, rank w < rank v)
    (b : Nat) (p : List Char)
    (hb : ∀ w ∈ bracketVars p, rank w < b) :
    ∃ fuel r, findInPathF env fs script fuel p = some r := by
  cases h : p.dropWhile notSep with
  | nil =>
    by_cases h1 : p.takeWhile notSep = []
    · exact ⟨1, none, by
        rw [findInPathF_succ, h]
        unfold segStep contStep
        simp only [if_pos h1]⟩
    · by_cases h2 : isBracket (p.takeWhile notSep) = true
      · cases henv : env (bracketName (p.takeWhile notSep)) with
        | some v =>
          have hwmem : bracketName (p.takeWhile notSep) ∈ bracketVars p := by
            rw [bracketVars_of_nil p h]
            simp [h2]
          have hw : rank (bracketName (p.takeWhile notSep)) < b := hb _ hwmem
          obtain ⟨f1, r1, h1f⟩ := findInPathF_total env rank fs script hA
            (rank (bracketName (p.takeWhile notSep))) v
            (hA (bracketName (p.takeWhile notSep)) v henv)
          cases r1 with
          | some s =>
            exact ⟨f1 + 1, some s, by
              rw [findInPathF_succ, h]
              unfold segStep contStep
              simp only [if_neg h1, if_pos h2, henv, h1f]⟩
          | none =>
            exact ⟨f1 + 1, none, by
              rw [findInPathF_succ, h]
              unfold segStep contStep
              simp only [if_neg h1, if_pos h2, henv, h1f]⟩
        | none =>
          exact ⟨1, none, by
            rw [findInPathF_succ, h]
            unfold segStep contStep
            simp only [if_neg h1, if_pos h2, henv]⟩
      · by_cases h3 : fs (p.takeWhile notSep ++ '/' :: script) = true
        · exact ⟨1, some (p.takeWhile notSep ++ '/' :: script), by
            rw [findInPathF_succ, h]
            unfold segStep contStep
            simp only [if_neg h1, if_neg h2, if_pos h3]⟩
        · exact ⟨1, none, by
            rw [findInPathF_succ, h]
            unfold segStep contStep
            simp only [if_neg h1, if_neg h2, if_neg h3]⟩
  | cons c rest2 =>
    have hsub : ∀ w ∈ bracketVars rest2, rank w < b := by
      intro w hw
      refine hb w ?_
      rw [bracketVars_of_cons p c rest2 h]
      exact List.mem_append_right _ hw
    obtain ⟨f2, r2, h2f⟩ := findInPathF_total env rank fs script hA b rest2
      hsub
    by_cases h1 : p.takeWhile notSep = []
    · exact ⟨f2 + 1, r2, by
        rw [findInPathF_succ, h]
        unfold segStep contStep
        simp only [if_pos h1, h2f]⟩
    · by_cases h2 : isBracket (p.takeWhile notSep) = true
      · cases henv : env (bracketName (p.takeWhile notSep)) with
        | some v =>
          have hwmem : bracketName (p.takeWhile notSep) ∈ bracketVars p := by
            rw [bracketVars_of_cons p c rest2 h]
            simp [h2]
          have hw : rank (bracketName (p.takeWhile notSep)) < b := hb _ hwmem
          obtain ⟨f1, r1, h1f⟩ := findInPathF_total env rank fs script hA
            (rank (bracketName (p.takeWhile notSep))) v
            (hA (bracketName (p.takeWhile notSep)) v henv)
          have h1m : findInPathF env fs script (f1 + f2) v = some r1 :=
            findInPathF_mono_le env fs script (Nat.le_add_right f1 f2) v r1 h1f
          have h2m : findInPathF env fs script (f1 + f2) rest2 = some r2 :=
            findInPathF_mono_le env fs script (Nat.le_add_left f2 f1) rest2
              r2 h2f
          cases r1 with
          | some s =>
            exact ⟨f1 + f2 + 1, some s, by
              rw [findInPathF_succ, h]
              unfold segStep contStep
              simp only [if_neg h1, if_pos h2, henv, h1m]⟩
          | none =>
            exact ⟨f1 + f2 + 1, r2, by
              rw [findInPathF_succ, h]
              unfold segStep contStep
              simp only [if_neg h1, if_pos h2, henv, h1m, h2m]⟩
        | none =>
          exact ⟨f2 + 1, r2, by
            rw [findInPathF_succ, h]
            unfold segStep contStep
            simp only [if_neg h1, if_pos h2, henv, h2f]⟩
      · by_cases h3 : fs (p.takeWhile notSep ++ '/' :: script) = true
        · exact ⟨1, some (p.takeWhile notSep ++ '/' :: script), by
            rw [findInPathF_succ, h]
            unfold segStep contStep
            simp only [if_neg h1, if_neg h2, if_pos h3]⟩
        · exact ⟨f2 + 1, r2, by
            rw [findInPathF_succ, h]
            unfold segStep contStep
            simp only [if_neg h1, if_neg h2, if_neg h3, h2f]⟩
termination_by (b, p.length)
decreasing_by
· exact Prod.Lex.left _ _ hw
· have hle := (List.dropWhile_sublist (p := notSep) (l := p)).length_le
  rw [h] at hle
  simp only [List.length_cons] at hle
  exact Prod.Lex.right b (by omega)
· exact Prod.Lex.left _ _ hw

/-- C9: search-path resolution terminates for every search path whose
environment-variable indirection is acyclic (expressed by a rank
function that strictly decreases across every `[VAR]` indirection: some
fuel suffices for `findInPath` to return), and the recursion has no
cycle or depth guard, so termination holds only under that
precondition: a variable whose value contains its own bracketed name
(`cycEnv`) recurses without bound — the model runs out of fuel at every
fuel. -/
theorem findInPath_terminates_iff_acyclic :
    (∀ (env : List Char → Option (List Char)) (rank : List Char → Nat)
        (fs : List Char → Bool) (script p : List Char),
      (∀ v val, env v = some val → ∀ w ∈ bracketVars val, rank w < rank v) →
      ∃ fuel r, findInPathF env fs script fuel p = some r) ∧
    (∀ (fs : List Char → Bool) (script : List Char) (fuel : Nat),
      findInPathF cycEnv fs script fuel ("[CYC]".data) = none) := by
  constructor
  · intro env rank fs script p hA
    exact findInPathF_total env rank fs script hA
      ((bracketVars p).foldr (fun w acc => max (rank w + 1) acc) 0) p
      (fun w hw => lt_foldr_max rank (bracketVars p) w hw)
  · intro fs script fuel
    induction fuel with
    | zero => rfl
    | succ fuel ih =>
      rw [findInPathF_succ]
      have ht : ("[CYC]".data).takeWhile notSep = "[CYC]".data := by decide
      have hdw : ("[CYC]".data).dropWhile notSep = [] := by decide
      rw [ht, hdw]
      unfold segStep contStep
      have h1 : ¬("[CYC]".data = ([] : List Char)) := by decide
      have h2 : isBracket "[CYC]".data = true := by decide
      have h3 : bracketName "[CYC]".data = "CYC".data := by decide
      have h4 : cycEnv "CYC".data = some "[CYC]".data := by decide
      simp only [if_neg h1, if_pos h2, h3, h4, ih]

/-- Witness for C9: the acyclicity half applied at a concrete environment
(no variable set, so the acyclicity hypothesis is vacuous). -/
theorem findInPath_terminates_iff_acyclic_witness :
    ∃ fuel r, findInPathF (fun _ => none) (fun _ => false) "s.py".data fuel
      "/a:[X]".data = some r :=
  findInPath_terminates_iff_acyclic.1 (fun _ => none) (fun _ => 0)
    (fun _ => false) "s.py".data "/a:[X]".data
    (fun _ _ hv => Option.noConfusion hv)

/-- C1 (evidence of the code bug): on a bridge whose `init()` never
succeeded, `cleanup()` is not a safe no-op. With a null `mModule` (init
never ran, or the module failed to load) the very first statement is
`PyObject_GetAttrString(NULL, "Cleanup")`; with a loaded module but a
null `mUserData` (entry call failed) the unconditional
`Py_DECREF(mUserData)` dereferences null. Both concrete states evaluate
to undefined behavior, contradicting the claimed safety. -/
theorem cleanup_after_failed_init_is_ub :
    PythonDso.cleanup ⟨"n".data, "scr.py".data, none, none, false⟩
      ⟨true, some (PyVal.pyint 1)⟩ = POut.ub ∧
    PythonDso.cleanup ⟨"n".data, "scr.py".data, some 1, none, false⟩
      ⟨true, some (PyVal.pyint 1)⟩ = POut.ub :=
  ⟨rfl, rfl⟩

/-- C2 (evidence of the code bug): `numNodes()` and `getNode()` on a
bridge holding no module (before `init`, or after `cleanup` nulled the
fields) immediately pass the null `mModule` to
`PyObject_GetAttrString` — undefined behavior, not a logged defensive
error with a neutral return value. -/
theorem numNodes_getNode_no_module_ub :
    PythonDso.numNodes ⟨"n".data, "scr.py".data, none, none, false⟩
      ⟨true, some (PyVal.pyint 2)⟩ = POut.ub ∧
    PythonDso.getNode ⟨"n".data, "scr.py".data, none, none, false⟩
      ⟨true, some (PyVal.pystr "A".data)⟩ (fun _ => some 7) = POut.ub :=
  ⟨rfl, rfl⟩

/-- C8: every exported protocol entry point, when the embedded runtime is
not alive, returns its neutral/failure value (0 or null) after logging a
warning, without touching any bridge (no bridge method invoked, nothing
allocated, `user_ptr` untouched). -/
theorem runtime_guard_neutral (dso : PythonDso)
    (orcC orcN orcG : CallOracle) (orcI : InitOracle)
    (registry : List Char → Option Nat)
    (env : List Char → Option (List Char)) (fs : List Char → Bool)
    (fuel : Nat) (name script procpath : List Char) (verbose : Bool) :
    proceduralCleanup false dso orcC
      = POut.ok (0, [LogLevel.warning], false) ∧
    proceduralNumNodes false dso orcN
      = POut.ok (0, [LogLevel.warning], false) ∧
    proceduralGetNode false dso orcG registry
      = POut.ok (none, [LogLevel.warning], false) ∧
    proceduralInit false true env fs fuel name script procpath verbose orcI
      = some ⟨0, none, false, false, false, [LogLevel.warning]⟩ :=
  ⟨rfl, rfl, rfl, rfl⟩

/-- C4: on an initialized bridge (module and UserContext held), `getNode`
returns a node handle exactly when the script's accessor returned a
string that resolves in the host registry; on a missing accessor, a
raised error, a non-string result, or an unresolved name it logs an
error and returns null. -/
theorem getNode_contract (st : PythonDso) (orc : CallOracle)
    (registry : List Char → Option Nat) (m : Nat) (u : PyVal)
    (hm : st.mModule = some m) (hu : st.mUserData = some u) :
    ∃ out, st.getNode orc registry = POut.ok out ∧
      (∀ n, out.node = some n ↔ (orc.hasFunc = true ∧
        ∃ s, orc.callResult = some (PyVal.pystr s) ∧ registry s = some n)) ∧
      (out.node = none → LogLevel.error ∈ out.logs) := by
  by_cases hf : orc.hasFunc = true
  · cases hr : orc.callResult with
    | none =>
      have heval : st.getNode orc registry
          = POut.ok ⟨none, [LogLevel.error], false⟩ := by
        unfold PythonDso.getNode
        rw [hm, hu, if_pos hf, hr]
        rfl
      refine ⟨_, heval, ?_, by intro _; simp⟩
      intro n
      simp [hr]
    | some pyrv =>
      cases pyrv with
      | pystr s =>
        cases hreg : registry s with
        | some n0 =>
          have heval : st.getNode orc registry
              = POut.ok ⟨some n0, [], false⟩ := by
            unfold PythonDso.getNode
            rw [hm, hu, if_pos hf, hr]
            show (match registry s with
              | some n => POut.ok (⟨some n, [], false⟩ : GetNodeOut)
              | none => POut.ok ⟨none, [LogLevel.error], false⟩)
              = POut.ok ⟨some n0, [], false⟩
            rw [hreg]
          refine ⟨_, heval, ?_, by intro h; cases h⟩
          intro n
          constructor
          · intro h
            cases h
            exact ⟨hf, s, rfl, hreg⟩
          · rintro ⟨-, s2, hs2, hr2⟩
            cases hs2
            rw [hreg] at hr2
            exact hr2
        | none =>
          have heval : st.getNode orc registry
              = POut.ok ⟨none, [LogLevel.error], false⟩ := by
            unfold PythonDso.getNode
            rw [hm, hu, if_pos hf, hr]
            show (match registry s with
              | some n => POut.ok (⟨some n, [], false⟩ : GetNodeOut)
              | none => POut.ok ⟨none, [LogLevel.error], false⟩)
              = POut.ok ⟨none, [LogLevel.error], false⟩
            rw [hreg]
          refine ⟨_, heval, ?_, by intro _; simp⟩
          intro n
          constructor
          · intro h
            cases h
          · rintro ⟨-, s2, hs2, hr2⟩
            cases hs2
            rw [hreg] at hr2
            cases hr2
      | pyint k =>
        have heval : st.getNode orc registry
            = POut.ok ⟨none, [LogLevel.error, LogLevel.error], true⟩ := by
          unfold PythonDso.getNode
          rw [hm, hu, if_pos hf, hr]
          rfl
        refine ⟨_, heval, ?_, by intro _; simp⟩
        intro n
        simp [hr]
      | tuple2 x y =>
        have heval : st.getNode orc registry
            = POut.ok ⟨none, [LogLevel.error, LogLevel.error], true⟩ := by
          unfold PythonDso.getNode
          rw [hm, hu, if_pos hf, hr]
          rfl
        refine ⟨_, heval, ?_, by intro _; simp⟩
        intro n
        simp [hr]
      | other =>
        have heval : st.getNode orc registry
            = POut.ok ⟨none, [LogLevel.error, LogLevel.error], true⟩ := by
          unfold PythonDso.getNode
          rw [hm, hu, if_pos hf, hr]
          rfl
        refine ⟨_, heval, ?_, by intro _; simp⟩
        intro n
        simp [hr]
  · have heval : st.getNode orc registry
        = POut.ok ⟨none, [LogLevel.error], false⟩ := by
      unfold PythonDso.getNode
      rw [hm, hu, if_neg hf]
    refine ⟨_, heval, ?_, by intro _; simp⟩
    intro n
    simp [hf]

/-- Witness for C4: a concrete initialized bridge whose accessor returns
the name of a registered node. -/
theorem getNode_contract_witness :
    ∃ out, PythonDso.getNode
        ⟨"n".data, "/a.py".data, some 1, some (PyVal.pyint 0), false⟩
        ⟨true, some (PyVal.pystr "A".data)⟩
        (fun s => if s = "A".data then some 7 else none) = POut.ok out ∧
      (∀ n, out.node = some n ↔ (true = true ∧
        ∃ s, some (PyVal.pystr "A".data) = some (PyVal.pystr s) ∧
          (if s = "A".data then some 7 else none) = some n)) ∧
      (out.node = none → LogLevel.error ∈ out.logs) :=
  getNode_contract
    ⟨"n".data, "/a.py".data, some 1, some (PyVal.pyint 0), false⟩
    ⟨true, some (PyVal.pystr "A".data)⟩
    (fun s => if s = "A".data then some 7 else none) 1 (PyVal.pyint 0)
    rfl rfl

/-- C5: for every failure mode of `init()` — the `imp` machinery
unavailable, module failed to load, entry function missing, wrong return
shape (including a status that does not coerce to an integer), or an
error raised during execution — `init()` logs an error, suppresses it,
and returns 0. The model's `init` is a total function into `InitOut`
(no error outcome exists to propagate, and every raised Python error is
cleared by the embedded branches), so nothing crosses the host
boundary. -/
theorem init_failure_suppressed_returns_zero (st : PythonDso)
    (orc : InitOracle) (hfail : InitFailure orc) :
    (st.init orc).status = 0 ∧ LogLevel.error ∈ (st.init orc).logs := by
  unfold PythonDso.init
  cases hio : orc.impOk with
  | false => simp
  | true =>
    cases hls : orc.loadSourceOk with
    | false => simp
    | true =>
      cases hlr : orc.loadResult with
      | none => simp
      | some m =>
        cases hhi : orc.hasInit with
        | false => simp
        | true =>
          cases hir : orc.initResult with
          | none => simp
          | some v =>
            rcases hfail with h | h | h | h | h | ⟨v2, hv2, hnt⟩ |
              ⟨a, c, ha, hni⟩
            · rw [hio] at h
              exact absurd h (by simp)
            · rw [hls] at h
              exact absurd h (by simp)
            · rw [hlr] at h
              exact absurd h (by simp)
            · rw [hhi] at h
              exact absurd h (by simp)
            · rw [hir] at h
              exact absurd h (by simp)
            · rw [hir] at hv2
              cases hv2
              cases v with
              | tuple2 a c => exact absurd rfl (hnt a c)
              | pyint n => simp
              | pystr s => simp
              | other => simp
            · rw [hir] at ha
              cases ha
              cases a with
              | pyint n => exact absurd rfl (hni n)
              | pystr s => simp [pyIntAsLong]
              | tuple2 x y => simp [pyIntAsLong]
              | other => simp [pyIntAsLong]

/-- Witness for C5: a module whose `Init` entry function is missing. -/
theorem init_failure_suppressed_returns_zero_witness :
    (PythonDso.init ⟨"n".data, "/a.py".data, none, none, false⟩
        ⟨true, true, some 1, false, none⟩).status = 0 ∧
      LogLevel.error ∈
        (PythonDso.init ⟨"n".data, "/a.py".data, none, none, false⟩
          ⟨true, true, some 1, false, none⟩).logs :=
  init_failure_suppressed_returns_zero
    ⟨"n".data, "/a.py".data, none, none, false⟩
    ⟨true, true, some 1, false, none⟩
    (Or.inr (Or.inr (Or.inr (Or.inl rfl))))

/-- C10: when the entry function returns a two-element tuple whose first
element does not coerce to an integer, `init()` has already retained the
second element: the bridge holds a UserContext while `init()` reports
failure (status 0). And `procedural_init` stores the bridge handle into
the host's `user_ptr` whenever the bridge is valid, before `init()`'s
status is known, so the host receives a live handle even when the
returned status is 0. -/
theorem init_failure_retains_context_and_handle :
    (∀ (st : PythonDso) (orc : InitOracle) (m : Nat) (a c : PyVal),
      orc.impOk = true → orc.loadSourceOk = true → orc.loadResult = some m →
      orc.hasInit = true → orc.initResult = some (PyVal.tuple2 a c) →
      (∀ n : Int, a ≠ PyVal.pyint n) →
      (st.init orc).status = 0 ∧ (st.init orc).st.mUserData = some c) ∧
    (∀ (env : List Char → Option (List Char)) (fs : List Char → Bool)
        (fuel : Nat) (name script procpath : List Char) (verbose : Bool)
        (orc : InitOracle) (st : PythonDso) (cl : List LogLevel),
      mkPythonDso env fs fuel name script procpath verbose = some (st, cl) →
      st.valid = true →
      ∃ r, proceduralInit true true env fs fuel name script procpath verbose
          orc = some r ∧
        r.userPtr = some (st.init orc).st ∧
        r.status = (st.init orc).status) := by
  constructor
  · intro st orc m a c h1 h2 h3 h4 h5 h6
    unfold PythonDso.init
    rw [h1, h2, h3, h4, h5]
    cases a with
    | pyint n => exact absurd rfl (h6 n)
    | pystr s => simp [pyIntAsLong]
    | tuple2 x y => simp [pyIntAsLong]
    | other => simp [pyIntAsLong]
  · intro env fs fuel name script procpath verbose orc st cl hmk hval
    have heval : proceduralInit true true env fs fuel name script procpath
        verbose orc
        = some ⟨(st.init orc).status, some (st.init orc).st, true, false,
            true, cl ++ (st.init orc).logs⟩ := by
      unfold proceduralInit
      rw [hmk]
      show (if st.valid = true then _ else _) = _
      rw [if_pos hval]
    exact ⟨_, heval, rfl, rfl⟩

/-- Witness for C10: a concrete script file with an entry function that
returns `(<non-integer>, <context>)`. -/
theorem init_failure_retains_context_and_handle_witness :
    ((PythonDso.init ⟨"n".data, "/a.py".data, none, none, false⟩
        ⟨true, true, some 1, true,
          some (PyVal.tuple2 PyVal.other (PyVal.pyint 5))⟩).status = 0 ∧
      (PythonDso.init ⟨"n".data, "/a.py".data, none, none, false⟩
        ⟨true, true, some 1, true,
          some (PyVal.tuple2 PyVal.other (PyVal.pyint 5))⟩).st.mUserData
        = some (PyVal.pyint 5)) ∧
    (∃ r, proceduralInit true true (fun _ => none)
        (fun s => s == "/a.py".data) 3 "n".data "/a.py".data "/p".data
        false ⟨true, true, some 1, true,
          some (PyVal.tuple2 PyVal.other (PyVal.pyint 5))⟩ = some r ∧
      r.userPtr = some
        ((PythonDso.init
          ⟨"n".data, "/a.py".data, none, none, false⟩
          ⟨true, true, some 1, true,
            some (PyVal.tuple2 PyVal.other (PyVal.pyint 5))⟩).st) ∧
      r.status = (PythonDso.init
        ⟨"n".data, "/a.py".data, none, none, false⟩
        ⟨true, true, some 1, true,
          some (PyVal.tuple2 PyVal.other (PyVal.pyint 5))⟩).status) :=
  ⟨init_failure_retains_context_and_handle.1
      ⟨"n".data, "/a.py".data, none, none, false⟩
      ⟨true, true, some 1, true,
        some (PyVal.tuple2 PyVal.other (PyVal.pyint 5))⟩
      1 PyVal.other (PyVal.pyint 5) rfl rfl rfl rfl rfl
      (fun _ h => PyVal.noConfusion h),
   init_failure_retains_context_and_handle.2 (fun _ => none)
      (fun s => s == "/a.py".data) 3 "n".data "/a.py".data "/p".data false
      ⟨true, true, some 1, true,
        some (PyVal.tuple2 PyVal.other (PyVal.pyint 5))⟩
      ⟨"n".data, normalizeSeps "/a.py".data, none, none, false⟩ [] rfl rfl⟩

/-- C6 counterexample: with locator `"scr.py"` not a regular file, search
path `"/missing:[ENVX]"`, `ENVX` unset and no file present anywhere, the
adapter allocates a `PythonDso` with `new` and returns without
`delete`-ing it — the bridge object is leaked, not "destroyed
immediately" as the claim states. -/
theorem invalid_bridge_not_destroyed_ce :
    (proceduralInit true true (fun _ => none) (fun _ => false) 4 "n".data
        "scr.py".data "/missing:[ENVX]".data false
        ⟨true, true, some 1, true, some PyVal.other⟩).map
      (fun r => r.allocated && !r.deleted) = some true := rfl

/-- C6 (amended): for every construction where the script locator is not
an existing regular file and the search path yields no match, the bridge
is marked invalid, a warning is logged, no script is loaded, `init()` is
never invoked on it, and the adapter returns failure (0) leaving the
allocated bridge object unreleased (leaked, never destroyed) and the
host's `user_ptr` untouched. -/
theorem invalid_bridge_behavior (env : List Char → Option (List Char))
    (fs : List Char → Bool) (fuel : Nat)
    (name script procpath : List Char) (verbose : Bool) (orc : InitOracle)
    (hfs : fs script = false)
    (hfind : findInPathF env fs script fuel procpath = some none) :
    ∃ r, proceduralInit true true env fs fuel name script procpath verbose
        orc = some r ∧
      r.status = 0 ∧ r.userPtr = none ∧ r.initCalled = false ∧
      r.allocated = true ∧ r.deleted = false ∧
      LogLevel.warning ∈ r.logs ∧
      ∃ st cl, mkPythonDso env fs fuel name script procpath verbose
          = some (st, cl) ∧ st.valid = false := by
  have hmk : mkPythonDso env fs fuel name script procpath verbose
      = some (⟨name, [], none, none, verbose⟩,
        (if verbose then [LogLevel.info] else []) ++ [LogLevel.warning]) := by
    unfold mkPythonDso
    rw [hfs]
    simp only [Bool.false_eq_true, if_false]
    rw [hfind]
  have heval : proceduralInit true true env fs fuel name script procpath
      verbose orc
      = some ⟨0, none, true, false, false,
          (if verbose then [LogLevel.info] else []) ++ [LogLevel.warning]⟩ := by
    unfold proceduralInit
    rw [hmk]
    rfl
  refine ⟨_, heval, rfl, rfl, rfl, rfl, rfl, ?_, ⟨_, _, hmk, rfl⟩⟩
  exact List.mem_append_right _ (by simp)

/-- Witness for C6 (amended): the spec's scenario, search path
`"/missing:[ENVX]"` with `ENVX` unset and an empty filesystem. -/
theorem invalid_bridge_behavior_witness :
    ∃ r, proceduralInit true true (fun _ => none) (fun _ => false) 4
        "n".data "scr.py".data "/missing:[ENVX]".data false
        ⟨true, true, some 1, true, some PyVal.other⟩ = some r ∧
      r.status = 0 ∧ r.userPtr = none ∧ r.initCalled = false ∧
      r.allocated = true ∧ r.deleted = false ∧
      LogLevel.warning ∈ r.logs ∧
      ∃ st cl, mkPythonDso (fun _ => none) (fun _ => false) 4 "n".data
          "scr.py".data "/missing:[ENVX]".data false
          = some (st, cl) ∧ st.valid = false :=
  invalid_bridge_behavior (fun _ => none) (fun _ => false) 4 "n".data
    "scr.py".data "/missing:[ENVX]".data false
    ⟨true, true, some 1, true, some PyVal.other⟩ rfl rfl

/-- C7 counterexample: on basename `a.b.py` the code derives `pyproc_a`
(truncation at the *first* dot), not `pyproc_a.b` (the basename with its
extension stripped), so "the extension is stripped" is false as
stated. -/
theorem modname_not_last_extension_ce :
    deriveModname "/x/a.b.py".data ≠ specModname "/x/a.b.py".data := by
  decide

/-- C7 (amended): module-name derivation is a pure function of the
resolved script's basename: everything from the *first* dot of the
basename onward is stripped (not just the final extension) and the
fixed tag `pyproc_` is prepended; consequently two scripts with
identical basenames in different directories derive the same module
name (a documented collision, not disambiguated). -/
theorem modname_first_dot_characterization :
    ∀ script : List Char,
      deriveModname script = firstDotModname script ∧
      (∀ t : List Char, basenameOf t = basenameOf script →
        deriveModname t = deriveModname script) := by
  have hchar : ∀ s : List Char, deriveModname s = firstDotModname s := by
    intro s
    unfold deriveModname firstDotModname basenameOf
    generalize (s.reverse.takeWhile (fun c => c != '/' && c != '\\')).reverse
      = base
    have hdata : "pyproc_".data = ['p', 'y', 'p', 'r', 'o', 'c', '_'] := rfl
    rw [hdata]
    simp [List.takeWhile_cons]
  intro script
  refine ⟨hchar script, ?_⟩
  intro t ht
  rw [hchar t, hchar script]
  unfold firstDotModname
  rw [ht]

/-- Witness for C7 (amended): two scripts sharing the basename `foo.py`
in different directories derive the same module name. -/
theorem modname_first_dot_characterization_witness :
    deriveModname "/x/foo.py".data = firstDotModname "/x/foo.py".data ∧
    deriveModname "/y/foo.py".data = deriveModname "/x/foo.py".data :=
  ⟨(modname_first_dot_characterization "/x/foo.py".data).1,
   (modname_first_dot_characterization "/x/foo.py".data).2 "/y/foo.py".data
     (by decide)⟩
